import Mathlib

/-!
Verification of the Indian-Kanoon judgement scraper against its
natural-language specification.

The development shallowly embeds the stateful Python source:
- the checkpoint store of scraper.py (load_checkpoint / save_checkpoint)
  and of download.py (get_checkpoint_value / update_checkpoint_value),
- the year/month traversal of scraper.py's scrape_court,
- the batch sink save_links_batch,
- the row loop of download.py's process_csv,
- the duplicate-removal pass of duplicate.py.

File states are explicit values (Option String for the checkpoint file,
Option of a list of CSV entries for an output file); the JSON codec and
the browser are external collaborators, so they enter as explicit
function parameters or as oracle fields of an environment record.
Exceptions raised and caught in the source are modelled by the
corresponding control flow (an aborted flag, outcome values).
-/

namespace Kanoon

/-- A per-court checkpoint record, mirroring the JSON object
with fields last_year, last_month, is_done written by scraper.py. -/
structure Checkpoint where
  last_year : Option Nat
  last_month : Option String
  is_done : Bool
deriving Repr, DecidableEq

/-- The default record inserted by scrape_court when a court is absent
from the checkpoint mapping. -/
def defaultCkpt : Checkpoint := ⟨none, none, false⟩

/-! ## Checkpoint Store (scraper.load_checkpoint / download.get_checkpoint_value)

The backing file is `Option String`: none models a missing file, some s
its byte content.  The JSON codec is passed in as a parameter
`parse`: `parse s = none` models the JSONDecodeError / ValueError that
the Python code catches.  Both loaders are total functions: every
exception the source can see is caught there and turned into the
empty-progress value, which is exactly what these definitions return. -/

/-- scraper.py load_checkpoint: missing or zero-size file gives the empty
mapping; a parse failure (the caught JSONDecodeError branch) also gives
the empty mapping. -/
def load_checkpoint (parse : String → Option (List (String × Checkpoint)))
    (file : Option String) : List (String × Checkpoint) :=
  match file with
  | none => []
  | some s => if s.length = 0 then [] else (parse s).getD []

/-- download.py get_checkpoint_value: missing file gives 0; a parse
failure (caught JSONDecodeError branch) gives 0; otherwise the value
stored under the csv key, defaulting to 0. -/
def get_checkpoint_value (parse : String → Option (List (String × Nat)))
    (file : Option String) (csv : String) : Nat :=
  match file with
  | none => 0
  | some s =>
    match parse s with
    | some data => (data.lookup csv).getD 0
    | none => 0

/-! ## Batch Sink (scraper.save_links_batch)

An output CSV file is `Option (List (CsvEntry α))`: none models a file
that does not exist; a CsvEntry is either the header line that
pandas.to_csv writes when the file did not yet exist, or one data row. -/

/-- One line of an output CSV file. -/
inductive CsvEntry (α : Type) where
  | header : CsvEntry α
  | row : α → CsvEntry α
deriving Repr, DecidableEq

/-- scraper.py save_links_batch: an empty batch returns immediately;
otherwise the rows are appended, preceded by the header exactly when the
destination file did not exist yet. -/
def save_links_batch {α : Type} (links : List α)
    (file : Option (List (CsvEntry α))) : Option (List (CsvEntry α)) :=
  if links.isEmpty then file
  else
    match file with
    | none => some (CsvEntry.header :: links.map CsvEntry.row)
    | some es => some (es ++ links.map CsvEntry.row)

/-- A sequence of save_links_batch calls against one destination. -/
def flushBatches {α : Type} (batches : List (List α))
    (file : Option (List (CsvEntry α))) : Option (List (CsvEntry α)) :=
  batches.foldl (fun f b => save_links_batch b f) file

/-! ## Download-mode row loop (download.process_csv)

The body of the per-row try block can end four ways, all finalized
before the loop reaches the checkpoint update that follows the
try/except: the Cloudflare handshake exhausts its retries
(open_kanoon_page returns False), saving the HTML fails, an exception is
raised and caught by the except arm, or the row succeeds.  The browser
and filesystem are oracles indexed by row number. -/

/-- Outcome of one row of download.py's loop. -/
inductive RowOutcome where
  | success : RowOutcome
  | handshakeFail : RowOutcome
  | saveFail : RowOutcome
  | exn : RowOutcome
deriving Repr, DecidableEq

/-- The branch structure inside process_csv's try/except for one row:
a raised exception is caught by the except arm; otherwise
open_kanoon_page failing means the handshake was exhausted; otherwise
save_as_html failing means the save failed; otherwise success. -/
def rowOutcome (openOk saveOk raises : Nat → Bool) (idx : Nat) : RowOutcome :=
  if raises idx then RowOutcome.exn
  else if !openOk idx then RowOutcome.handshakeFail
  else if !saveOk idx then RowOutcome.saveFail
  else RowOutcome.success

/-- The for-loop of process_csv: n rows remaining, idx the current row
index, chk the persisted checkpoint value.  After each row, regardless
of its outcome, update_checkpoint_value sets the checkpoint to idx+1.
Returns the final checkpoint value and the log of attempted rows. -/
def processRows (outcome : Nat → RowOutcome) :
    Nat → Nat → Nat → Nat × List (Nat × RowOutcome)
  | 0, _, chk => (chk, [])
  | n+1, idx, _ =>
    let o := outcome idx
    let rest := processRows outcome n (idx+1) (idx+1)
    (rest.1, (idx, o) :: rest.2)

/-- download.py process_csv for one csv file: reads the starting index
from the checkpoint; if it is already past the end, returns without
touching anything; otherwise runs the row loop to the end of the file. -/
def process_csv (openOk saveOk raises : Nat → Bool) (total chk0 : Nat) :
    Nat × List (Nat × RowOutcome) :=
  if total ≤ chk0 then (chk0, [])
  else processRows (rowOutcome openOk saveOk raises) (total - chk0) chk0 chk0

/-! ## Duplicate removal (duplicate.remove_url_duplicates)

pandas drop_duplicates with subset equal to the url column and keep set
to first: a row is kept exactly when no earlier row carries the same
url.  The accumulator seen records the urls already encountered. -/

/-- One row of a court CSV file (columns court, year, month, title, url). -/
structure CsvRow where
  court : String
  year : String
  month : String
  title : String
  url : String
deriving Repr, DecidableEq

/-- drop_duplicates on the url column with keep first: walk the rows,
keeping a row exactly when its url has not been seen before. -/
def dropDupAux (seen : List String) : List CsvRow → List CsvRow
  | [] => []
  | r :: rs =>
    if r.url ∈ seen then dropDupAux seen rs
    else r :: dropDupAux (r.url :: seen) rs

/-- duplicate.py remove_url_duplicates: read the file, drop duplicate
urls keeping the first occurrence, write the result back. -/
def remove_url_duplicates (rows : List CsvRow) : List CsvRow :=
  dropDupAux [] rows

/-! ## Concurrent checkpoint updates (scraper.scrape_court workers)

Each worker thread of scrape_all runs scrape_court, which calls
load_checkpoint once (atomic under the lock), then mutates its local
copy of the mapping and calls save_checkpoint (a full atomic rewrite
under the lock) after each completed month.  The lock is held only for
the duration of one load or one save, never across the cycle, so the
interleaving of two workers is over these atomic actions.  The store and
each worker's local dictionary are maps from court name to record. -/

/-- A checkpoint mapping, as held in the file or in a worker's memory. -/
def CkptMap : Type := String → Option Checkpoint

/-- Python dict item assignment on a checkpoint mapping. -/
def setCkpt (m : CkptMap) (k : String) (v : Checkpoint) : CkptMap :=
  fun q => if q = k then some v else m q

/-- One atomic action of a worker: load_checkpoint (read the whole
store into the local dict, under the lock), a local in-memory update of
one court's record (no lock needed), or save_checkpoint (write the
whole local dict over the store, under the lock). -/
inductive Act where
  | load : Act
  | upd : String → Checkpoint → Act
  | save : Act

/-- Effect of one action, given the shared store and the worker's local
dict; returns the new store and the new local dict. -/
def runAct (store loc : CkptMap) : Act → CkptMap × CkptMap
  | Act.load => (store, store)
  | Act.upd k v => (store, setCkpt loc k v)
  | Act.save => (loc, loc)

/-- Two workers A and B, each with a pending script of actions, sharing
one store.  Because every action is atomic under the single lock, any
execution is an interleaving of the two scripts. -/
structure Sys where
  store : CkptMap
  localA : CkptMap
  localB : CkptMap
  progA : List Act
  progB : List Act

/-- Run the next pending action of worker A (who = true) or B. -/
def stepSys (s : Sys) (who : Bool) : Sys :=
  if who then
    match s.progA with
    | [] => s
    | a :: rest =>
      let p := runAct s.store s.localA a
      { s with store := p.1, localA := p.2, progA := rest }
  else
    match s.progB with
    | [] => s
    | a :: rest =>
      let p := runAct s.store s.localB a
      { s with store := p.1, localB := p.2, progB := rest }

/-- Run a schedule: at each step the named worker executes its next
pending atomic action. -/
def runSched (sched : List Bool) (s : Sys) : Sys :=
  sched.foldl stepSys s

/-- The action script of a scrape_court worker that completes one month
for court k: one load_checkpoint at entry, then the in-memory update of
its own record followed by save_checkpoint. -/
def workerScript (k : String) (c : Checkpoint) : List Act :=
  [Act.load, Act.upd k c, Act.save]

/-! ## Year/month traversal (scraper.scrape_court)

The browser is an oracle: bypass y tells whether bypass_cloudflare
returns normally (true) or raises its Cloudflare exception (false) for
year y's listing URL, and pages y gives the (text, href) anchors of the
year page that get_month_links then filters.  Processing one month
(process_month_page) catches every exception internally, so at this
level it always returns; its effect here is recording the completed
unit.  The except arm of scrape_court is the aborted flag: once set, the
remaining years are not traversed and is_done is not written. -/

/-- The twelve month names of scraper.py (case-sensitive, locale-fixed). -/
def month_names : List String :=
  ["January", "February", "March", "April", "May", "June",
   "July", "August", "September", "October", "November", "December"]

/-- One month link extracted from a year listing page. -/
structure MonthLink where
  name : String
  url : String
deriving Repr, DecidableEq

/-- Python str.strip() with no argument: remove leading and trailing
whitespace from the text of an anchor. -/
def pyStrip (s : String) : String :=
  ⟨((s.data.dropWhile Char.isWhitespace).reverse.dropWhile
      Char.isWhitespace).reverse⟩

/-- scraper.py get_month_links: keep each anchor whose stripped text is
one of the twelve month names. -/
def get_month_links (anchors : List (String × String)) : List MonthLink :=
  anchors.filterMap fun a =>
    let text := pyStrip a.1
    if text ∈ month_names then some ⟨text, a.2⟩ else none

/-- The environment of one scrape_court run: the configured year range
and the browser oracle. -/
structure ScrapeEnv where
  startYear : Nat
  endYear : Nat
  bypass : Nat → Bool
  pages : Nat → List (String × String)

/-- The evolving state of one scrape_court run: the court's record in
the worker's mapping, the local variables last_year and last_month, the
month units completed so far (in completion order), and whether the
Cloudflare exception has unwound the year loop. -/
structure CourtState where
  ckpt : Checkpoint
  lastYear : Option Nat
  lastMonth : Option String
  processed : List (Nat × String)
  aborted : Bool
deriving Repr, DecidableEq

/-- The state at entry of scrape_court's year loop, from the court's
checkpoint record. -/
def initState (c : Checkpoint) : CourtState :=
  { ckpt := c, lastYear := c.last_year, lastMonth := c.last_month,
    processed := [], aborted := false }

/-- The continue-branch guard: skip entire years strictly before
last_year (None compares as no skip). -/
def skipYear (lastYear : Option Nat) (year : Nat) : Bool :=
  match lastYear with
  | some ly => year < ly
  | none => false

/-- start_month_idx: when continuing a partial year (last_year equals
the current year and last_month is a known month name), resume at the
index after last_month; otherwise start at 0. -/
def resumeIdx (lastYear : Option Nat) (lastMonth : Option String)
    (year : Nat) : Nat :=
  match lastYear, lastMonth with
  | some ly, some lm =>
    if ly = year ∧ lm ∈ month_names then month_names.indexOf lm + 1 else 0
  | _, _ => 0

/-- Processing one month link: process_month_page runs (always returns),
then the checkpoint record and the local variables are updated to this
(year, month) and save_checkpoint persists the mapping. -/
def processMonth (year : Nat) (st : CourtState) (m : MonthLink) : CourtState :=
  { st with
    processed := st.processed ++ [(year, m.name)],
    ckpt := { st.ckpt with last_year := some year, last_month := some m.name },
    lastYear := some year,
    lastMonth := some m.name }

/-- One iteration of scrape_court's year loop.  In order: the pending
Cloudflare exception (aborted) skips everything; the continue for years
before last_year; bypass_cloudflare, whose failure raises (sets
aborted); get_month_links, an empty result being logged and skipped; the
resume-index computation with its continue when the whole year was
already finished; and the month loop over the link list from the resume
index on. -/
def processYear (env : ScrapeEnv) (st : CourtState) (year : Nat) : CourtState :=
  if st.aborted then st
  else if skipYear st.lastYear year then st
  else if !(env.bypass year) then { st with aborted := true }
  else
    let mls := get_month_links (env.pages year)
    if mls.isEmpty then st
    else
      let i := resumeIdx st.lastYear st.lastMonth year
      if 11 < i then st
      else (mls.drop i).foldl (processMonth year) st

/-- The year loop over the interval of n years starting at s. -/
def runYears (env : ScrapeEnv) (s n : Nat) (st : CourtState) : CourtState :=
  (List.range' s n).foldl (processYear env) st

/-- scraper.py scrape_court for one court: a missing record defaults;
an is_done record returns immediately; otherwise the year loop runs over
range(start_year, end_year + 1), and if no Cloudflare exception unwound
it, is_done is set and saved.  The surrounding except arm makes the
function total: a raised exception is logged and the function returns,
so the caller (the worker pool) never sees it. -/
def scrape_court (env : ScrapeEnv) (ckpt0 : Option Checkpoint) : CourtState :=
  let c := ckpt0.getD defaultCkpt
  if c.is_done then initState c
  else
    let st := runYears env env.startYear (env.endYear + 1 - env.startYear)
      (initState c)
    if st.aborted then st
    else { st with ckpt := { st.ckpt with is_done := true } }

/-! ## Reference data for the resume claim -/

/-- The month units the resume rule of the specification prescribes for
one year, given checkpoint values last_year = ly and last_month = lm:
years strictly before ly contribute nothing, the year ly itself resumes
immediately after lm in calendar order, and later years contribute every
month. -/
def unitsFor (ly : Nat) (lm : String) (y : Nat) : List (Nat × String) :=
  if y < ly then []
  else if y = ly then
    (month_names.drop (month_names.indexOf lm + 1)).map (fun m => (y, m))
  else month_names.map (fun m => (y, m))

/-- The prescribed units over the interval of n years starting at s. -/
def resume_units (s n ly : Nat) (lm : String) : List (Nat × String) :=
  (List.range' s n).flatMap (unitsFor ly lm)

/-- The hypothesis that every year listing page shows the full calendar:
the extracted month links are named exactly by the twelve month names in
calendar order. -/
def fullCal (env : ScrapeEnv) : Prop :=
  ∀ y, (get_month_links (env.pages y)).map MonthLink.name = month_names

/-- The invariant threaded through the year loop of scrape_court while
resuming from checkpoint values (ly, lm), having traversed the years
before s: the Cloudflare exception has not fired, the record fields
mirror the local variables last_year and last_month, and either no month
has been processed in this run (the variables still hold the checkpoint
values) or the last processed unit was the December of some
already-traversed year at or after ly. -/
def goodState (ly : Nat) (lm : String) (s : Nat) (st : CourtState) : Prop :=
  st.aborted = false ∧
  st.ckpt.last_year = st.lastYear ∧ st.ckpt.last_month = st.lastMonth ∧
  ((st.lastYear = some ly ∧ st.lastMonth = some lm) ∨
   (∃ yp, yp < s ∧ ly ≤ yp ∧ st.lastYear = some yp ∧
     st.lastMonth = some "December"))

/-! ## Concrete instances used by witnesses and counterexamples -/

/-- A JSON codec that rejects every input, as on a malformed file. -/
def noParseS : String → Option (List (String × Checkpoint)) := fun _ => none

/-- A JSON codec for the download checkpoint that rejects every input. -/
def noParseD : String → Option (List (String × Nat)) := fun _ => none

/-- A year page showing the full calendar. -/
def calPage : List (String × String) := month_names.map (fun m => (m, "u"))

/-- Environment whose handshake succeeds everywhere and whose year pages
show the full calendar, over the years 2020 and 2021. -/
def envW : ScrapeEnv := ⟨2020, 2021, fun _ => true, fun _ => calPage⟩

/-- Environment where the handshake exhausts its retries on the 2020
listing page but succeeds for 2021, whose page shows the full calendar. -/
def envC1 : ScrapeEnv :=
  ⟨2020, 2021, fun y => decide (y = 2021), fun _ => calPage⟩

/-- Environment whose year pages contain no month anchors at all. -/
def envE : ScrapeEnv := ⟨2020, 2020, fun _ => true, fun _ => []⟩

/-- Concrete per-row oracles for the download-loop witness. -/
def wOpen : Nat → Bool := fun i => decide (i ≠ 1)

/-- The save oracle for the download-loop witness. -/
def wSave : Nat → Bool := fun i => decide (i ≠ 2)

/-- The raised-exception oracle for the download-loop witness. -/
def wRaise : Nat → Bool := fun _ => false

/-- Records written by the two concurrent workers in the concurrency
scenario. -/
def ckA : Checkpoint := ⟨some 2020, some "January", false⟩

/-- Record written by worker B in the concurrency scenario. -/
def ckB : Checkpoint := ⟨some 2020, some "February", false⟩

/-- Initial system: empty store, two workers each completing one month
for their own court. -/
def sys0 : Sys :=
  ⟨fun _ => none, fun _ => none, fun _ => none,
   workerScript "CourtA" ckA, workerScript "CourtB" ckB⟩

/-- The interleaving in which both workers load before either saves:
A loads, B loads, A updates and saves, B updates and saves. -/
def lostUpdateSched : List Bool := [true, false, true, true, false, false]

/-- The serial schedule: worker A runs to completion, then worker B. -/
def serialSched : List Bool := [true, true, true, false, false, false]

/-! # Helper lemmas -/

/-- Unfolding one flush of a sequence. -/
theorem flushBatches_cons {α : Type} (b : List α) (bs : List (List α))
    (file : Option (List (CsvEntry α))) :
    flushBatches (b :: bs) file = flushBatches bs (save_links_batch b file) :=
  rfl

/-- Flushing onto an existing file appends the batch's rows (an empty
batch appends nothing). -/
theorem save_links_batch_some {α : Type} (b : List α)
    (es : List (CsvEntry α)) :
    save_links_batch b (some es) = some (es ++ b.map CsvEntry.row) := by
  by_cases hb : b.isEmpty
  · have hbnil : b = [] := List.isEmpty_iff.mp hb
    simp [save_links_batch, hbnil]
  · simp [save_links_batch, hb]

/-- Flushing a non-empty batch onto a non-existent file writes the
header followed by the batch's rows. -/
theorem save_links_batch_none {α : Type} (b : List α) (hb : b ≠ []) :
    save_links_batch b (none : Option (List (CsvEntry α)))
      = some (CsvEntry.header :: b.map CsvEntry.row) := by
  have hb' : b.isEmpty = false := by simp [List.isEmpty_iff, hb]
  simp [save_links_batch, hb']

/-- Folding save_links_batch from an existing file only ever appends the
rows of the batches, in order. -/
theorem flushBatches_some {α : Type} (batches : List (List α))
    (es : List (CsvEntry α)) :
    flushBatches batches (some es)
      = some (es ++ batches.flatten.map CsvEntry.row) := by
  induction batches generalizing es with
  | nil => simp [flushBatches]
  | cons b bs ih =>
    rw [flushBatches_cons, save_links_batch_some, ih]
    simp

/-- Starting from a non-existent file, a sequence of flushes produces no
file when every batch is empty, and otherwise exactly one header
followed by all flushed rows in order. -/
theorem flushBatches_none {α : Type} (batches : List (List α)) :
    flushBatches batches none
      = if batches.flatten.isEmpty then none
        else some (CsvEntry.header :: batches.flatten.map CsvEntry.row) := by
  induction batches with
  | nil => simp [flushBatches]
  | cons b bs ih =>
    by_cases hb : b.isEmpty
    · have hbnil : b = [] := List.isEmpty_iff.mp hb
      subst hbnil
      rw [flushBatches_cons]
      simpa [save_links_batch] using ih
    · have hbne : b ≠ [] := fun h => by simp [h] at hb
      rw [flushBatches_cons, save_links_batch_none b hbne, flushBatches_some]
      simp [List.isEmpty_iff, hbne]

/-- The download row loop started at its own index advances the
checkpoint exactly to the index past the last processed row, logging the
rows in order. -/
theorem processRows_eq (f : Nat → RowOutcome) :
    ∀ n idx, processRows f n idx idx
      = (idx + n, (List.range' idx n).map (fun i => (i, f i))) := by
  intro n
  induction n with
  | zero => intro idx; simp [processRows]
  | succ n ih =>
    intro idx
    simp only [processRows, ih (idx+1), List.range'_succ, List.map_cons]
    refine Prod.ext ?_ rfl
    simp
    omega

/-- A year iteration on an already-aborted state does nothing: the
Cloudflare exception has unwound the year loop. -/
theorem processYear_aborted (env : ScrapeEnv) (st : CourtState) (y : Nat)
    (h : st.aborted = true) : processYear env st y = st := by
  simp [processYear, h]

/-- The whole year loop on an already-aborted state does nothing. -/
theorem runYears_aborted (env : ScrapeEnv) :
    ∀ n s st, st.aborted = true → runYears env s n st = st := by
  intro n
  induction n with
  | zero => intro s st _; rfl
  | succ n ih =>
    intro s st h
    show (List.range' s (n+1)).foldl (processYear env) st = st
    rw [List.range'_succ, List.foldl_cons, processYear_aborted env st s h]
    exact ih (s+1) st h

/-- The month loop appends exactly the iterated units to the processed
log and touches neither the aborted flag nor the is_done field. -/
theorem foldMonths_processed (y : Nat) :
    ∀ (ms : List MonthLink) (st : CourtState),
      (ms.foldl (processMonth y) st).processed
        = st.processed ++ ms.map (fun m => (y, m.name)) ∧
      (ms.foldl (processMonth y) st).aborted = st.aborted ∧
      (ms.foldl (processMonth y) st).ckpt.is_done = st.ckpt.is_done := by
  intro ms
  induction ms with
  | nil => intro st; simp
  | cons m ms ih =>
    intro st
    obtain ⟨h1, h2, h3⟩ := ih (processMonth y st m)
    rw [List.foldl_cons]
    refine ⟨?_, by rw [h2]; rfl, by rw [h3]; rfl⟩
    rw [h1]
    simp [processMonth]

/-- After a non-empty month loop, the local variables and the record
both hold the iterated year and the name of the last iterated month. -/
theorem foldMonths_last (y : Nat) :
    ∀ (ms : List MonthLink) (st : CourtState), ms ≠ [] →
      (ms.foldl (processMonth y) st).lastYear = some y ∧
      (ms.foldl (processMonth y) st).ckpt.last_year = some y ∧
      (ms.foldl (processMonth y) st).lastMonth
        = ms.getLast?.map MonthLink.name ∧
      (ms.foldl (processMonth y) st).ckpt.last_month
        = ms.getLast?.map MonthLink.name := by
  intro ms
  induction ms with
  | nil => intro st h; exact absurd rfl h
  | cons m ms ih =>
    intro st _
    cases ms with
    | nil => simp [processMonth]
    | cons m2 ms2 =>
      have h := ih (processMonth y st m) (by simp)
      simpa [List.getLast?_cons_cons] using h

/-- Dropping fewer than twelve months from the calendar always leaves
December as the last remaining month. -/
theorem month_names_drop_getLast :
    ∀ i < 12, (month_names.drop i).getLast? = some "December" := by decide

/-- The calendar has twelve months. -/
theorem month_names_length : month_names.length = 12 := rfl

/-- One year iteration that actually traverses months, entered at resume
index i: the bypass succeeds, the full-calendar page yields twelve
links, and the months from index i on are processed in order, leaving
December as the last recorded month. -/
theorem processYear_from (env : ScrapeEnv) (hb : ∀ y, env.bypass y = true)
    (hp : fullCal env) (s i : Nat) (st : CourtState)
    (hab : st.aborted = false)
    (hskip : skipYear st.lastYear s = false)
    (hidx : resumeIdx st.lastYear st.lastMonth s = i)
    (hi : i < 12) :
    (processYear env st s).processed
      = st.processed ++ (month_names.drop i).map (fun m => (s, m)) ∧
    (processYear env st s).aborted = false ∧
    (processYear env st s).ckpt.is_done = st.ckpt.is_done ∧
    (processYear env st s).lastYear = some s ∧
    (processYear env st s).lastMonth = some "December" ∧
    (processYear env st s).ckpt.last_year = some s ∧
    (processYear env st s).ckpt.last_month = some "December" := by
  have hnames : (get_month_links (env.pages s)).map MonthLink.name
      = month_names := hp s
  have hlen : (get_month_links (env.pages s)).length = 12 := by
    have := congrArg List.length hnames
    simpa using this
  have hne : (get_month_links (env.pages s)).isEmpty = false := by
    rw [List.isEmpty_eq_false]
    intro h
    rw [h] at hlen
    simp at hlen
  have hdropne : (get_month_links (env.pages s)).drop i ≠ [] := by
    rw [Ne, List.drop_eq_nil_iff, hlen]
    omega
  have hgoal : processYear env st s
      = ((get_month_links (env.pages s)).drop i).foldl (processMonth s) st := by
    rw [processYear, if_neg (by rw [hab]; simp), if_neg (by rw [hskip]; simp),
      if_neg (by rw [hb s]; simp)]
    simp only [hne, Bool.false_eq_true, if_false, hidx]
    rw [if_neg (by omega)]
  have hdropnames : ((get_month_links (env.pages s)).drop i).map MonthLink.name
      = month_names.drop i := by
    rw [List.map_drop, hnames]
  obtain ⟨hproc, habort, hdone⟩ :=
    foldMonths_processed s ((get_month_links (env.pages s)).drop i) st
  obtain ⟨hly, hcy, hlmn, hcm⟩ :=
    foldMonths_last s ((get_month_links (env.pages s)).drop i) st hdropne
  have hlast : ((get_month_links (env.pages s)).drop i).getLast?.map
      MonthLink.name = some "December" := by
    rw [← List.getLast?_map, hdropnames]
    exact month_names_drop_getLast i hi
  refine ⟨?_, ?_, ?_, ?_, ?_, ?_, ?_⟩
  · rw [hgoal, hproc, ← hdropnames, List.map_map]
    rfl
  · rw [hgoal, habort, hab]
  · rw [hgoal, hdone]
  · rw [hgoal, hly]
  · rw [hgoal, hlmn, hlast]
  · rw [hgoal, hcy]
  · rw [hgoal, hcm, hlast]

/-- One arbitrary year iteration from a good state: the processed log
grows by exactly the units the resume rule prescribes for that year, the
invariant is maintained for the next year, is_done is untouched, and the
iteration either records the current year as last_year or leaves the
state untouched. -/
theorem stepYear (env : ScrapeEnv) (ly : Nat) (lm : String)
    (hp : fullCal env) (hb : ∀ y, env.bypass y = true)
    (hlm : lm ∈ month_names) (s : Nat) (st : CourtState)
    (hst : goodState ly lm s st) :
    (processYear env st s).processed = st.processed ++ unitsFor ly lm s ∧
    goodState ly lm (s+1) (processYear env st s) ∧
    (processYear env st s).ckpt.is_done = st.ckpt.is_done ∧
    ((processYear env st s).lastYear = some s ∨ processYear env st s = st) := by
  obtain ⟨hab, hsy, hsm, hreg⟩ := hst
  rcases hreg with ⟨hA1, hA2⟩ | ⟨yp, hyp1, hyp2, hB1, hB2⟩
  · by_cases hlt : s < ly
    · have heq : processYear env st s = st := by
        rw [processYear, if_neg (by rw [hab]; simp),
          if_pos (by rw [hA1]; simp [skipYear, hlt])]
      have hu : unitsFor ly lm s = [] := by simp [unitsFor, hlt]
      rw [heq, hu]
      exact ⟨by simp, ⟨hab, hsy, hsm, Or.inl ⟨hA1, hA2⟩⟩, rfl, Or.inr rfl⟩
    · by_cases hey : s = ly
      · have hiv : resumeIdx st.lastYear st.lastMonth s
            = month_names.indexOf lm + 1 := by
          rw [hA1, hA2, resumeIdx, if_pos ⟨hey.symm, hlm⟩]
        have hidxlt : month_names.indexOf lm < 12 := by
          have := List.indexOf_lt_length.mpr hlm
          rwa [month_names_length] at this
        by_cases h11 : month_names.indexOf lm + 1 < 12
        · obtain ⟨h1, h2, h3, h4, h5, h6, h7⟩ :=
            processYear_from env hb hp s (month_names.indexOf lm + 1) st hab
              (by rw [hA1]; simp [skipYear]; omega) hiv h11
          have hu : unitsFor ly lm s
              = (month_names.drop (month_names.indexOf lm + 1)).map
                  (fun m => (s, m)) := by
            rw [unitsFor, if_neg hlt, if_pos hey]
          refine ⟨by rw [h1, hu], ⟨h2, h6.trans h4.symm, h7.trans h5.symm,
            Or.inr ⟨s, by omega, by omega, h4, h5⟩⟩, h3, Or.inl h4⟩
        · have hi12 : month_names.indexOf lm + 1 = 12 := by omega
          have heq : processYear env st s = st := by
            rw [processYear, if_neg (by rw [hab]; simp),
              if_neg (by rw [hA1]; simp [skipYear]; omega)]
            rw [if_neg (by rw [hb s]; simp)]
            by_cases hne : (get_month_links (env.pages s)).isEmpty
            · rw [if_pos hne]
            · rw [if_neg hne, hiv, if_pos (by omega)]
          have hu : unitsFor ly lm s = [] := by
            rw [unitsFor, if_neg hlt, if_pos hey, hi12,
              List.drop_eq_nil_of_le (by rw [month_names_length])]
            rfl
          rw [heq, hu]
          exact ⟨by simp, ⟨hab, hsy, hsm, Or.inl ⟨hA1, hA2⟩⟩, rfl, Or.inr rfl⟩
      · have hgt : ly < s := by omega
        obtain ⟨h1, h2, h3, h4, h5, h6, h7⟩ :=
          processYear_from env hb hp s 0 st hab
            (by rw [hA1]; simp [skipYear]; omega)
            (by rw [hA1, hA2, resumeIdx, if_neg (by
              intro hc
              exact hey hc.1.symm)])
            (by omega)
        have hu : unitsFor ly lm s = month_names.map (fun m => (s, m)) := by
          rw [unitsFor, if_neg hlt, if_neg hey]
        refine ⟨by rw [h1, hu]; rfl, ⟨h2, h6.trans h4.symm, h7.trans h5.symm,
          Or.inr ⟨s, by omega, by omega, h4, h5⟩⟩, h3, Or.inl h4⟩
  · obtain ⟨h1, h2, h3, h4, h5, h6, h7⟩ :=
      processYear_from env hb hp s 0 st hab
        (by rw [hB1]; simp [skipYear]; omega)
        (by rw [hB1, hB2, resumeIdx, if_neg (by
          intro hc
          omega)])
        (by omega)
    have hu : unitsFor ly lm s = month_names.map (fun m => (s, m)) := by
      rw [unitsFor, if_neg (by omega), if_neg (by omega)]
    refine ⟨by rw [h1, hu]; rfl, ⟨h2, h6.trans h4.symm, h7.trans h5.symm,
      Or.inr ⟨s, by omega, by omega, h4, h5⟩⟩, h3, Or.inl h4⟩

/-- The year loop from a good state: the processed log grows by exactly
the units the resume rule prescribes over the traversed interval, the
invariant reaches the end of the interval, and is_done is untouched. -/
theorem mainFold (env : ScrapeEnv) (ly : Nat) (lm : String)
    (hp : fullCal env) (hb : ∀ y, env.bypass y = true)
    (hlm : lm ∈ month_names) :
    ∀ n s st, goodState ly lm s st →
      (runYears env s n st).processed
        = st.processed ++ resume_units s n ly lm ∧
      goodState ly lm (s + n) (runYears env s n st) ∧
      (runYears env s n st).ckpt.is_done = st.ckpt.is_done := by
  intro n
  induction n with
  | zero =>
    intro s st h
    exact ⟨by simp [runYears, resume_units], h, rfl⟩
  | succ n ih =>
    intro s st h
    have hstep := stepYear env ly lm hp hb hlm s st h
    have hrw : runYears env s (n+1) st
        = runYears env (s+1) n (processYear env st s) := by
      show (List.range' s (n+1)).foldl (processYear env) st = _
      rw [List.range'_succ, List.foldl_cons]
      rfl
    obtain ⟨ih1, ih2, ih3⟩ := ih (s+1) (processYear env st s) hstep.2.1
    refine ⟨?_, ?_, ?_⟩
    · rw [hrw, ih1, hstep.1]
      simp only [resume_units, List.range'_succ, List.flatMap_cons,
        List.append_assoc]
    · rw [hrw]
      have hn : s + (n + 1) = (s + 1) + n := by omega
      rw [hn]
      exact ih2
    · rw [hrw, ih3, hstep.2.2.1]

/-- Splitting the last year off the year loop. -/
theorem runYears_concat (env : ScrapeEnv) (s n : Nat) (st : CourtState) :
    runYears env s (n+1) st = processYear env (runYears env s n st) (s+n) := by
  show (List.range' s (n+1)).foldl (processYear env) st = _
  rw [List.range'_1_concat, List.foldl_append, List.foldl_cons, List.foldl_nil]
  rfl

/-- Setting is_done at the end of scrape_court leaves last_year as it
was. -/
theorem mark_done_last_year (st : CourtState) :
    ({ st with ckpt := { st.ckpt with is_done := true } }).ckpt.last_year
      = st.ckpt.last_year := rfl

/-- Setting is_done at the end of scrape_court makes is_done true. -/
theorem mark_done_is_done (st : CourtState) :
    ({ st with ckpt := { st.ckpt with is_done := true } }).ckpt.is_done
      = true := rfl

/-- Setting is_done at the end of scrape_court leaves the processed log
as it was. -/
theorem mark_done_processed (st : CourtState) :
    ({ st with ckpt := { st.ckpt with is_done := true } }).processed
      = st.processed := rfl

/-- scrape_court on a not-done record whose year loop completes without
the Cloudflare exception: the result is the loop's final state with
is_done set. -/
theorem scrape_court_not_done (env : ScrapeEnv) (c : Checkpoint)
    (hd : c.is_done = false)
    (hab : (runYears env env.startYear (env.endYear + 1 - env.startYear)
        (initState c)).aborted = false) :
    scrape_court env (some c)
      = { runYears env env.startYear (env.endYear + 1 - env.startYear)
            (initState c) with
          ckpt := { (runYears env env.startYear
                (env.endYear + 1 - env.startYear) (initState c)).ckpt
              with is_done := true } } := by
  simp [scrape_court, hd, hab]

/-- scrape_court on a not-done record whose year loop was unwound by the
Cloudflare exception: the result is the loop's final state, with is_done
left untouched. -/
theorem scrape_court_aborted_eq (env : ScrapeEnv) (c : Checkpoint)
    (hd : c.is_done = false)
    (hab : (runYears env env.startYear (env.endYear + 1 - env.startYear)
        (initState c)).aborted = true) :
    scrape_court env (some c)
      = runYears env env.startYear (env.endYear + 1 - env.startYear)
          (initState c) := by
  simp [scrape_court, hd, hab]

/-- The concrete environment envW satisfies the full-calendar
hypothesis. -/
theorem envW_fullCal : fullCal envW := by
  intro y
  show (get_month_links calPage).map MonthLink.name = month_names
  decide

/-! # Claim theorems -/

/-- C1 counterexample: the handshake exhausts its retries on the 2020
listing page while 2021's handshake would succeed and 2021's page shows
the full calendar, yet no unit at all is processed: bypass_cloudflare
raises, scrape_court's partition-level except arm catches it, and the
traversal does not continue to the next unit — the skip-and-continue
behaviour the claim asserts does not happen (though the run itself
survives: scrape_court returns normally). -/
theorem C1_counterexample_abort :
    (scrape_court envC1 (some defaultCkpt)).processed = [] ∧
    (scrape_court envC1 (some defaultCkpt)).ckpt.is_done = false ∧
    (scrape_court envC1 (some defaultCkpt)).aborted = true ∧
    envC1.bypass 2020 = false ∧ envC1.bypass 2021 = true ∧
    get_month_links (envC1.pages 2021) ≠ [] := by
  exact ⟨rfl, rfl, rfl, rfl, rfl, by decide⟩

/-- C1 amended: when the Challenge Handshake exhausts its attempts for a
unit of a partition, the raised exception is caught only by the
partition-level handler, so the partition's remaining traversal is
abandoned — every remaining unit is skipped, nothing more is processed
and is_done is not written — but the failure never escapes scrape_court
(the function is total), so the whole run and the other partitions are
unaffected. -/
theorem C1_amended_partition_abort (env : ScrapeEnv)
    (hse : env.startYear ≤ env.endYear)
    (hb0 : env.bypass env.startYear = false) :
    (scrape_court env (some defaultCkpt)).processed = [] ∧
    (scrape_court env (some defaultCkpt)).ckpt.is_done = false ∧
    (scrape_court env (some defaultCkpt)).aborted = true := by
  have h1 : processYear env (initState defaultCkpt) env.startYear
      = { initState defaultCkpt with aborted := true } := by
    simp [processYear, initState, defaultCkpt, skipYear, hb0]
  have hn : env.endYear + 1 - env.startYear
      = (env.endYear - env.startYear) + 1 := by omega
  have h2 : runYears env env.startYear (env.endYear + 1 - env.startYear)
      (initState defaultCkpt)
      = { initState defaultCkpt with aborted := true } := by
    rw [hn]
    show (List.range' env.startYear (env.endYear - env.startYear + 1)).foldl
      (processYear env) (initState defaultCkpt) = _
    rw [List.range'_succ, List.foldl_cons, h1]
    exact runYears_aborted env _ _ _ rfl
  have h3 := scrape_court_aborted_eq env defaultCkpt rfl (by rw [h2])
  rw [h3, h2]
  exact ⟨rfl, rfl, rfl⟩

/-- Witness for C1's amended statement at the concrete environment whose
handshake fails for 2020. -/
theorem C1_amended_witness :
    envC1.startYear ≤ envC1.endYear ∧
    envC1.bypass envC1.startYear = false ∧
    (scrape_court envC1 (some defaultCkpt)).aborted = true :=
  ⟨by decide, rfl,
    (C1_amended_partition_abort envC1 (by decide) rfl).2.2⟩

/-- C3: resuming a partition from a checkpoint with non-null last_year
and a valid last_month, with the handshake succeeding everywhere and
every year page listing the full calendar in order, the processed units
are exactly those the resume rule prescribes: years strictly before
last_year contribute nothing, the year last_year itself resumes at the
month immediately after last_month in calendar order, and every later
year in the configured range is processed in full. -/
theorem C3_resume_exact (env : ScrapeEnv) (ly : Nat) (lm : String)
    (hlm : lm ∈ month_names) (hp : fullCal env)
    (hb : ∀ y, env.bypass y = true) :
    (scrape_court env (some ⟨some ly, some lm, false⟩)).processed
      = resume_units env.startYear (env.endYear + 1 - env.startYear) ly lm := by
  have h0 : goodState ly lm env.startYear
      (initState ⟨some ly, some lm, false⟩) :=
    ⟨rfl, rfl, rfl, Or.inl ⟨rfl, rfl⟩⟩
  obtain ⟨m1, m2, m3⟩ := mainFold env ly lm hp hb hlm
    (env.endYear + 1 - env.startYear) env.startYear
    (initState ⟨some ly, some lm, false⟩) h0
  have hsc := scrape_court_not_done env ⟨some ly, some lm, false⟩ rfl m2.1
  rw [hsc, mark_done_processed, m1]
  rfl

/-- Witness for C3 at a concrete two-year environment resuming from
(2020, March). -/
theorem C3_resume_witness :
    "March" ∈ month_names ∧ fullCal envW ∧ (∀ y, envW.bypass y = true) ∧
    (scrape_court envW (some ⟨some 2020, some "March", false⟩)).processed
      = resume_units envW.startYear (envW.endYear + 1 - envW.startYear)
          2020 "March" :=
  ⟨by decide, envW_fullCal, fun _ => rfl,
    C3_resume_exact envW 2020 "March" (by decide) envW_fullCal
      (fun _ => rfl)⟩

/-- C6 counterexample: a fresh court whose single configured year page
yields no month links finishes the year loop, so is_done is set, but
last_year is still null and in particular does not equal the final year
of the range — the claimed invariant fails whenever trailing years yield
no month links. -/
theorem C6_counterexample_done_not_final_year :
    (scrape_court envE (some defaultCkpt)).ckpt.is_done = true ∧
    (scrape_court envE (some defaultCkpt)).ckpt.last_year ≠ some 2020 := by
  exact ⟨rfl, by decide⟩

/-- C6 amended: is_done records only that the year loop ran to
completion without a handshake exception; last_year tracks the last
completed month unit, so it equals the final year of the range when in
addition every year page lists the full calendar and the checkpoint's
last_year does not exceed the final year — years whose pages yield no
month links are skipped without advancing last_year, which is why the
unconditional form of the claim fails. -/
theorem C6_amended_done_last_year (env : ScrapeEnv) (ly : Nat) (lm : String)
    (hlm : lm ∈ month_names) (hp : fullCal env)
    (hb : ∀ y, env.bypass y = true)
    (hse : env.startYear ≤ env.endYear) (hly : ly ≤ env.endYear) :
    (scrape_court env (some ⟨some ly, some lm, false⟩)).ckpt.is_done = true ∧
    (scrape_court env (some ⟨some ly, some lm, false⟩)).ckpt.last_year
      = some env.endYear := by
  have h0 : goodState ly lm env.startYear
      (initState ⟨some ly, some lm, false⟩) :=
    ⟨rfl, rfl, rfl, Or.inl ⟨rfl, rfl⟩⟩
  have hes : env.startYear + (env.endYear - env.startYear) = env.endYear := by
    omega
  obtain ⟨m1, m2, m3⟩ := mainFold env ly lm hp hb hlm
    (env.endYear - env.startYear) env.startYear
    (initState ⟨some ly, some lm, false⟩) h0
  rw [hes] at m2
  have hstep := stepYear env ly lm hp hb hlm env.endYear _ m2
  have hn : env.endYear + 1 - env.startYear
      = (env.endYear - env.startYear) + 1 := by omega
  have hconcat : runYears env env.startYear (env.endYear + 1 - env.startYear)
      (initState ⟨some ly, some lm, false⟩)
      = processYear env
          (runYears env env.startYear (env.endYear - env.startYear)
            (initState ⟨some ly, some lm, false⟩)) env.endYear := by
    rw [hn, runYears_concat, hes]
  have hsc := scrape_court_not_done env ⟨some ly, some lm, false⟩ rfl
    (by rw [hconcat]; exact hstep.2.1.1)
  refine ⟨by rw [hsc, mark_done_is_done], ?_⟩
  rw [hsc, mark_done_last_year, hconcat]
  rcases hstep.2.2.2 with hL | hUn
  · rw [hstep.2.1.2.1, hL]
  · have hpe := hstep.1
    rw [hUn] at hpe
    have hu : unitsFor ly lm env.endYear = [] :=
      List.append_right_eq_self.mp hpe.symm
    have hley : ly = env.endYear := by
      by_contra hne
      rw [unitsFor, if_neg (by omega), if_neg (by omega)] at hu
      simp [month_names] at hu
    rw [hUn]
    obtain ⟨_, hsy1, _, hreg⟩ := m2
    rcases hreg with ⟨hA1, _⟩ | ⟨yp, hyp1, hyp2, _, _⟩
    · rw [hsy1, hA1, hley]
    · omega

/-- Witness for C6's amended statement at the concrete two-year
environment resuming from (2020, March). -/
theorem C6_amended_witness :
    "March" ∈ month_names ∧ envW.startYear ≤ envW.endYear ∧
    2020 ≤ envW.endYear ∧
    (scrape_court envW (some ⟨some 2020, some "March", false⟩)).ckpt.is_done
      = true ∧
    (scrape_court envW (some ⟨some 2020, some "March", false⟩)).ckpt.last_year
      = some envW.endYear :=
  ⟨by decide, by decide, by decide,
    (C6_amended_done_last_year envW 2020 "March" (by decide)
      envW_fullCal (fun _ => rfl) (by decide) (by decide)).1,
    (C6_amended_done_last_year envW 2020 "March" (by decide)
      envW_fullCal (fun _ => rfl) (by decide) (by decide)).2⟩

/-- C4: for every backing-store state that is missing, empty (zero
bytes), or malformed (the JSON codec rejects it — the codec rejects the
empty string, as JSON does), loading the checkpoint returns the empty
mapping in scraper.py and the zero index in download.py; both loaders
are total functions because every exception the source can raise there
is caught and mapped to this default. -/
theorem C4_corrupt_checkpoint_empty
    (parseS : String → Option (List (String × Checkpoint)))
    (parseD : String → Option (List (String × Nat)))
    (file : Option String) (csv : String)
    (hS : parseS "" = none) (hD : parseD "" = none)
    (h : file = none ∨ file = some "" ∨
      ∃ s, file = some s ∧ parseS s = none ∧ parseD s = none) :
    load_checkpoint parseS file = [] ∧
    get_checkpoint_value parseD file csv = 0 := by
  rcases h with h | h | ⟨s, h, h1, h2⟩ <;> subst h
  · exact ⟨rfl, rfl⟩
  · exact ⟨rfl, by simp [get_checkpoint_value, hD]⟩
  · constructor
    · simp [load_checkpoint, h1]
    · simp [get_checkpoint_value, h2]

/-- Witness for C4 at a concrete malformed store. -/
theorem C4_witness :
    noParseS "" = none ∧ noParseD "" = none ∧
    load_checkpoint noParseS (some "not-json") = [] ∧
    get_checkpoint_value noParseD (some "not-json") "a.csv" = 0 :=
  ⟨rfl, rfl,
    (C4_corrupt_checkpoint_empty noParseS noParseD (some "not-json") "a.csv"
      rfl rfl (Or.inr (Or.inr ⟨"not-json", rfl, rfl, rfl⟩)))⟩

/-- C5 counterexample: a single flush of an empty batch against a
non-existent destination leaves the destination non-existent, so the
resulting state is not a file with one header line and zero data rows;
the claim as stated fails when the total number of records is zero. -/
theorem C5_counterexample_empty_flush :
    flushBatches [([] : List Nat)] none = none ∧
    flushBatches [([] : List Nat)] none
      ≠ some [(CsvEntry.header : CsvEntry Nat)] := by
  exact ⟨rfl, by decide⟩

/-- C5 amended: provided at least one record is flushed in total,
starting from a non-existent destination the resulting file is exactly
one header line followed by all flushed records in append order,
regardless of how the records were split into flushes; when no record is
flushed at all, the destination file is never created. -/
theorem C5_amended_flush_header_rows {α : Type} (batches : List (List α))
    (h : batches.flatten ≠ []) :
    flushBatches batches none
      = some (CsvEntry.header :: batches.flatten.map CsvEntry.row) := by
  rw [flushBatches_none]
  simp [List.isEmpty_iff, h]

/-- Witness for C5 at a concrete split of three records into two
flushes. -/
theorem C5_amended_witness :
    ([[1], [2, 3]] : List (List Nat)).flatten ≠ [] ∧
    flushBatches ([[1], [2, 3]] : List (List Nat)) none
      = some (CsvEntry.header
          :: ([[1], [2, 3]] : List (List Nat)).flatten.map CsvEntry.row) :=
  ⟨by decide, C5_amended_flush_header_rows [[1], [2, 3]] (by decide)⟩

/-- C9: flushing an empty batch is a complete no-op on the file state:
it leaves an existing file unchanged and, when the destination does not
exist, neither creates it nor writes a header. -/
theorem C9_empty_flush_noop {α : Type} (file : Option (List (CsvEntry α))) :
    save_links_batch ([] : List α) file = file := rfl

/-- C8: in download mode the checkpoint is advanced to row index + 1
after every attempted row regardless of its outcome (success, handshake
failure, save failure, or caught exception), so after a run the
persisted next-row-index is strictly greater than every attempted index,
and a run started before the end of the file finishes with the
checkpoint at the total row count. -/
theorem C8_checkpoint_advances (openOk saveOk raises : Nat → Bool)
    (total chk0 : Nat) :
    (∀ p ∈ (process_csv openOk saveOk raises total chk0).2,
      p.1 < (process_csv openOk saveOk raises total chk0).1) ∧
    (chk0 < total → (process_csv openOk saveOk raises total chk0).1 = total) := by
  unfold process_csv
  by_cases h : total ≤ chk0
  · rw [if_pos h]
    exact ⟨by intro p hp; simp at hp, by omega⟩
  · rw [if_neg h, processRows_eq]
    constructor
    · intro p hp
      simp only [List.mem_map] at hp
      obtain ⟨i, hi, rfl⟩ := hp
      have := List.mem_range'_1.mp hi
      omega
    · intro _
      simp
      omega

/-- Witness for C8 at a run of three rows (one handshake failure, one
save failure) starting from index 0. -/
theorem C8_witness :
    0 < 3 ∧ (process_csv wOpen wSave wRaise 3 0).1 = 3 :=
  ⟨by decide, (C8_checkpoint_advances wOpen wSave wRaise 3 0).2 (by decide)⟩

/-- C2 counterexample: with the read-modify-write cycle spanning two
separate lock acquisitions (load_checkpoint at worker entry, then
save_checkpoint of the stale local mapping after each month), the
interleaving in which both workers load before either saves loses
CourtA's update: both workers run their scripts to completion, yet the
final persisted mapping has no entry for CourtA — the claim's
no-lost-update guarantee fails. -/
theorem C2_counterexample_lost_update :
    (runSched lostUpdateSched sys0).store "CourtA" = none ∧
    (runSched lostUpdateSched sys0).store "CourtB" = some ckB ∧
    (runSched lostUpdateSched sys0).progA = [] ∧
    (runSched lostUpdateSched sys0).progB = [] := by
  refine ⟨by decide, by decide, rfl, rfl⟩

/-- C2 amended: each single load and each single save is atomic under
the lock (partial states are not observable — an action is the unit of
interleaving), but the read-modify-write cycle spans separate lock
acquisitions, so updates of different partitions are both preserved only
when the cycles do not overlap: if worker B's load happens after worker
A's save (the serial schedule), both courts' updates are present in the
final persisted mapping. -/
theorem C2_amended_serial_no_lost_update (k1 k2 : String)
    (c1 c2 : Checkpoint) (m0 : CkptMap) (h : k1 ≠ k2) :
    (runSched serialSched
      ⟨m0, m0, m0, workerScript k1 c1, workerScript k2 c2⟩).store k1
        = some c1 ∧
    (runSched serialSched
      ⟨m0, m0, m0, workerScript k1 c1, workerScript k2 c2⟩).store k2
        = some c2 := by
  constructor
  · simp [runSched, serialSched, stepSys, workerScript, runAct, setCkpt, h]
  · simp [runSched, serialSched, stepSys, workerScript, runAct, setCkpt, h]

/-- The rows kept by the duplicate-removal pass form a sublist of the
input: relative order is preserved and no new row appears. -/
theorem dropDupAux_sublist (l : List CsvRow) :
    ∀ seen, List.Sublist (dropDupAux seen l) l := by
  induction l with
  | nil => intro seen; simp [dropDupAux]
  | cons r rs ih =>
    intro seen
    by_cases h : r.url ∈ seen
    · simp only [dropDupAux, if_pos h]
      exact (ih seen).trans (List.sublist_cons_self r rs)
    · simp only [dropDupAux, if_neg h]
      exact (ih (r.url :: seen)).cons₂ r

/-- No kept row carries a url that was already in the seen accumulator. -/
theorem dropDupAux_not_seen (l : List CsvRow) :
    ∀ seen r, r ∈ dropDupAux seen l → r.url ∉ seen := by
  induction l with
  | nil => intro seen r h; simp [dropDupAux] at h
  | cons x xs ih =>
    intro seen r h
    by_cases hx : x.url ∈ seen
    · simp only [dropDupAux, if_pos hx] at h
      exact ih seen r h
    · simp only [dropDupAux, if_neg hx] at h
      rcases List.mem_cons.mp h with rfl | h'
      · exact hx
      · intro hs
        exact ih _ r h' (List.mem_cons_of_mem _ hs)

/-- The kept rows have pairwise distinct urls. -/
theorem dropDupAux_pairwise (l : List CsvRow) :
    ∀ seen, (dropDupAux seen l).Pairwise (fun a b => a.url ≠ b.url) := by
  induction l with
  | nil => intro seen; simp [dropDupAux]
  | cons x xs ih =>
    intro seen
    by_cases hx : x.url ∈ seen
    · simp only [dropDupAux, if_pos hx]; exact ih seen
    · simp only [dropDupAux, if_neg hx]
      refine List.Pairwise.cons ?_ (ih _)
      intro b hb
      have h2 := dropDupAux_not_seen xs (x.url :: seen) b hb
      intro he
      exact h2 (by rw [← he]; exact List.mem_cons_self _ _)

/-- Every url of the input whose url is not yet seen is represented
among the kept rows. -/
theorem dropDupAux_covers (l : List CsvRow) :
    ∀ seen r, r ∈ l → r.url ∉ seen →
      ∃ q ∈ dropDupAux seen l, q.url = r.url := by
  induction l with
  | nil => intro seen r h; simp at h
  | cons x xs ih =>
    intro seen r hr hs
    by_cases hx : x.url ∈ seen
    · simp only [dropDupAux, if_pos hx]
      rcases List.mem_cons.mp hr with rfl | hr'
      · exact absurd hx hs
      · exact ih seen r hr' hs
    · simp only [dropDupAux, if_neg hx]
      rcases List.mem_cons.mp hr with rfl | hr'
      · exact ⟨r, List.mem_cons_self _ _, rfl⟩
      · by_cases hu : r.url = x.url
        · exact ⟨x, List.mem_cons_self _ _, hu.symm⟩
        · obtain ⟨q, hq, he⟩ := ih (x.url :: seen) r hr' (by
            intro hmem
            rcases List.mem_cons.mp hmem with h1 | h1
            · exact hu h1
            · exact hs h1)
          exact ⟨q, List.mem_cons_of_mem _ hq, he⟩

/-- Each kept row is the first row of the input bearing its url. -/
theorem dropDupAux_first (l : List CsvRow) :
    ∀ seen q, q ∈ dropDupAux seen l →
      l.find? (fun x => x.url == q.url) = some q := by
  induction l with
  | nil => intro seen q h; simp [dropDupAux] at h
  | cons x xs ih =>
    intro seen q hq
    by_cases hx : x.url ∈ seen
    · simp only [dropDupAux, if_pos hx] at hq
      have hne : q.url ∉ seen := dropDupAux_not_seen xs seen q hq
      have hxq : (x.url == q.url) = false := by
        simp only [beq_eq_false_iff_ne]
        intro he; exact hne (he ▸ hx)
      rw [List.find?_cons]
      simp only [hxq]
      exact ih seen q hq
    · simp only [dropDupAux, if_neg hx] at hq
      rcases List.mem_cons.mp hq with rfl | hq'
      · rw [List.find?_cons]
        simp
      · have hne : q.url ∉ x.url :: seen := dropDupAux_not_seen xs _ q hq'
        have hxq : (x.url == q.url) = false := by
          simp only [beq_eq_false_iff_ne]
          intro he
          exact hne (by rw [← he]; exact List.mem_cons_self _ _)
        rw [List.find?_cons]
        simp only [hxq]
        exact ih _ q hq'

/-- On a list whose urls are pairwise distinct and disjoint from the
seen accumulator, the pass keeps everything. -/
theorem dropDupAux_id (l : List CsvRow) :
    ∀ seen, (∀ r ∈ l, r.url ∉ seen) →
      l.Pairwise (fun a b => a.url ≠ b.url) → dropDupAux seen l = l := by
  induction l with
  | nil => intro seen _ _; rfl
  | cons x xs ih =>
    intro seen hseen hpw
    have hx : x.url ∉ seen := hseen x (List.mem_cons_self _ _)
    simp only [dropDupAux, if_neg hx]
    congr 1
    refine ih (x.url :: seen) ?_ (List.Pairwise.of_cons hpw)
    intro r hr hmem
    rcases List.mem_cons.mp hmem with h1 | h1
    · exact (List.pairwise_cons.mp hpw).1 r hr h1.symm
    · exact hseen r (List.mem_cons_of_mem _ hr) h1

/-- C10: the duplicate-removal pass keeps, for each distinct url,
exactly the first row bearing that url, preserving the relative order of
the kept rows (the result is a sublist of the input with pairwise
distinct urls, covering every url of the input, and each kept row is the
find-first row for its url), and it is idempotent. -/
theorem C10_dedup_first_idempotent (l : List CsvRow) :
    remove_url_duplicates (remove_url_duplicates l) = remove_url_duplicates l ∧
    (remove_url_duplicates l).Sublist l ∧
    (remove_url_duplicates l).Pairwise (fun a b => a.url ≠ b.url) ∧
    (∀ r ∈ l, ∃ q ∈ remove_url_duplicates l, q.url = r.url) ∧
    (∀ q ∈ remove_url_duplicates l,
      l.find? (fun x => x.url == q.url) = some q) := by
  refine ⟨?_, dropDupAux_sublist l [], dropDupAux_pairwise l [],
    fun r hr => dropDupAux_covers l [] r hr (by simp),
    fun q hq => dropDupAux_first l [] q hq⟩
  exact dropDupAux_id (dropDupAux [] l) [] (fun r _ => by simp)
    (dropDupAux_pairwise l [])

/-- Witness for C2's amended statement at the two concrete courts. -/
theorem C2_amended_witness :
    "CourtA" ≠ "CourtB" ∧
    (runSched serialSched
      ⟨fun _ => none, fun _ => none, fun _ => none,
       workerScript "CourtA" ckA, workerScript "CourtB" ckB⟩).store "CourtA"
        = some ckA :=
  ⟨by decide,
    (C2_amended_serial_no_lost_update "CourtA" "CourtB" ckA ckB
      (fun _ => none) (by decide)).1⟩

end Kanoon
